import Mathlib

/-!
Shallow embedding of `warlight.py`, the line-oriented protocol engine for the
Warlight game server. The Python `Engine` class keeps a mutable state graph
(regions, super regions, session scalars, a response queue), dispatches each
input line against a registry of regex-tagged methods, and notifies a pluggable
`Handler` (the collaborator) through named callbacks.

Modelling choices, all derived from the source:
- Machine state is the structure `Engine` (the instance attributes set in
  `Engine.__init__`). The two lookup dictionaries are association lists with
  Python-dict semantics (insertion order, overwrite on repeated key, `KeyError`
  on a missing key).
- Python object references between `Region` and `SuperRegion` objects are
  represented by identity tokens resolved through the engine dictionaries; the
  identities are the dictionary keys, which the claims under study never
  re-register.
- Collaborator callbacks are recorded as `Callback` trace events. The default
  `Handler` methods mutate nothing, so a callback invocation has no effect on
  engine state; what the engine passes to the callback is recorded in the event.
- Fallible Python operations (`dict[k]`, `list[i]`, `int(s)`) return
  `Except PyErr`; an uncaught exception is an `Except.error` propagating out of
  the handler and out of `Engine.run`.
- The regexes attached by the `@event` / `@event_item` decorators are embedded
  as deterministic scanners over `List Char`. Each scanner carries a doc
  comment quoting the regex it embeds; for these particular regexes the greedy
  character classes are pairwise disjoint at every boundary, so the
  deterministic scan computes exactly the Python `re` match.
-/

/-- Python exceptions that the engine code can raise or catch.
`keyboardInterrupt` and `eofError` are the two exception types named in the
`except` clauses of `Engine.run`; the others arise from dictionary lookups,
list indexing and `int()` conversion in the handler bodies. -/
inductive PyErr where
  | keyError (key : String)
  | indexError
  | valueError (text : String)
  | keyboardInterrupt
  | eofError
  deriving DecidableEq, Repr

/-- Python `text.split(sep)` for a single-character separator, on the char
list: splits at every occurrence of the separator and keeps empty pieces,
returning at least one piece. -/
def splitCharList (sep : Char) : List Char → List (List Char)
  | [] => [[]]
  | c :: cs =>
    if c = sep then [] :: splitCharList sep cs
    else
      match splitCharList sep cs with
      | [] => [[c]]
      | g :: gs => (c :: g) :: gs

/-- Python `text.split(" ")`, as used on every extracted item string. -/
def pySplitSpace (text : String) : List String :=
  (splitCharList ' ' text.data).map fun l => String.mk l

/-- Python `text.split(",")`, as used on the neighbor id field. -/
def pySplitComma (text : String) : List String :=
  (splitCharList ',' text.data).map fun l => String.mk l

/-- Python `xs[i]` on a list: the element, or an `IndexError`. -/
def pyGetIdx (xs : List String) (i : Nat) : Except PyErr String :=
  match xs.get? i with
  | some v => .ok v
  | none => .error .indexError

/-- Python `int(text)` restricted to the strings the engine feeds it: the
digit-only captures of the patterns. A non-empty all-digit string converts to
its value; anything else raises `ValueError` (the sign/whitespace forms Python
would also accept are never produced by the digit-restricted regex captures). -/
def pyInt (text : String) : Except PyErr Int :=
  if text.data ≠ [] ∧ text.data.all Char.isDigit then
    .ok ((text.data.foldl (fun n c => 10 * n + (c.toNat - 48)) 0 : Nat) : Int)
  else
    .error (.valueError text)

/-- Python `d[k] = v` on a dict modelled as an insertion-ordered association
list: overwrite the existing binding in place, or append a new one. -/
def dictSet {α : Type} : List (String × α) → String → α → List (String × α)
  | [], k, v => [(k, v)]
  | (k', v') :: rest, k, v =>
    if k' = k then (k, v) :: rest else (k', v') :: dictSet rest k v

/-- Python `d[k]` on a dict: the value, or a `KeyError` naming the key. -/
def dictGet {α : Type} : List (String × α) → String → Except PyErr α
  | [], k => .error (.keyError k)
  | (k', v') :: rest, k => if k' = k then .ok v' else dictGet rest k

/-- In-place mutation of the object stored under a key (Python mutates the
object through the reference held by the dict; absent keys are untouched,
though every use below is guarded by a prior successful lookup). -/
def dictMapAt {α : Type} : List (String × α) → String → (α → α) → List (String × α)
  | [], _, _ => []
  | (k', v') :: rest, k, f =>
    if k' = k then (k', f v') :: rest else (k', v') :: dictMapAt rest k f

/-- Python identity comparison `a is b` between a string freshly allocated by
`str.split` and a source-code string literal. CPython interns compile-time
literals but never the fresh multi-character objects returned by `split`, so
the two operands are distinct objects and the comparison is `False` regardless
of their contents. This is the comparison on lines 387 and 389 of the source. -/
def pyIsFreshLit (_fresh _lit : String) : Bool := false

/-- `class Region`: identity, the identity of its super region (the Python
object reference), army count, owner, the neighbour list (identities of the
referenced `Region` objects, in append order) and the open `extras` map. -/
structure Region where
  region_id : String
  super_region : String
  armies : Int
  owner : String
  neighbours : List String
  extras : List (String × String)
  deriving DecidableEq, Repr

/-- `class SuperRegion`: identity, the reward exactly as the handler stores it
(the captured item field `split[1]`, a string), the member-region list and the
open `extras` map. -/
structure SuperRegion where
  super_region_id : String
  reward : String
  regions : List String
  extras : List (String × String)
  deriving DecidableEq, Repr

/-- One collaborator callback invocation, recording the `Handler` method name
and the data the engine passes (regions and super regions are passed as object
references; the events record their identities). -/
inductive Callback where
  | per_setup_super_region (super_region_id reward : String)
  | on_setup_super_region
  | per_setup_region (super_region_id region_id : String)
  | on_setup_region
  | per_setup_neighbor (region_id neighbor_id : String)
  | on_setup_neighbor
  | on_setting_me (name : String)
  | on_setting_opponent (name : String)
  | on_setting_starting_armies (armies : Int)
  | on_pick_starting_regions (time : String) (region_ids : List String)
  | per_update_map (region_id owner : String) (armies : Int)
  | on_update_map
  | per_opponent_place_armies (region_id : String) (armies : Int)
  | on_opponent_place_armies
  | per_opponent_attack_or_move (region_id : String) (armies : Int)
  | on_opponent_attack_or_move
  | on_go_place_armies (time : String)
  | on_go_attack_or_transfer (time : String)
  deriving DecidableEq, Repr

/-- The instance attributes set in `Engine.__init__` (the `handler` attribute
is modelled by the callback trace, and `handler_methods` by the static registry
below). -/
structure Engine where
  responses : List String
  super_regions : List (String × SuperRegion)
  regions : List (String × Region)
  me : Option String
  opponent : Option String
  starting_armies : Int
  deriving DecidableEq, Repr

/-- The state `Engine.__init__` produces. -/
def Engine.init : Engine :=
  { responses := []
    super_regions := []
    regions := []
    me := none
    opponent := none
    starting_armies := 0 }

/-- What one engine method produces: the successor state, the collaborator
callbacks invoked (in order), and the lines written to standard output. -/
abbrev HandlerResult := Engine × List Callback × List String

/-- `Engine.do_no_moves`: replace the response list with the single canonical
no-op token. -/
def Engine.do_no_moves (s : Engine) : Engine :=
  { s with responses := ["No moves"] }

/-- Python `sep.join(xs)`. -/
def pyJoin (sep : String) : List String → String
  | [] => ""
  | [x] => x
  | x :: xs => x ++ sep ++ pyJoin sep xs

/-- `Engine.respond`: substitute `do_no_moves` when the response list is
empty, write the comma-joined responses as one newline-terminated line to
standard output, flush, and clear the list. Returns the successor state and
the written line. -/
def Engine.respond (s : Engine) : Engine × String :=
  let s := if s.responses.length = 0 then s.do_no_moves else s
  ({ s with responses := [] }, pyJoin "," s.responses ++ "\n")

/-- `Engine.add_response`. -/
def Engine.add_response (s : Engine) (message : String) : Engine :=
  { s with responses := s.responses ++ [message] }

/-- Loop body of `on_setup_map_super_regions`: for each item string, split on
single spaces, build a `SuperRegion` from fields 0 and 1, register it under
field 0 and invoke the per-item callback. -/
def goSuperRegions : List String → Engine → Except PyErr (Engine × List Callback)
  | [], s => .ok (s, [])
  | super_region :: rest, s =>
    let split := pySplitSpace super_region
    match pyGetIdx split 0 with
    | .error e => .error e
    | .ok a0 =>
      match pyGetIdx split 1 with
      | .error e => .error e
      | .ok a1 =>
        let new_super_region : SuperRegion :=
          { super_region_id := a0, reward := a1, regions := [], extras := [] }
        let s := { s with super_regions := dictSet s.super_regions a0 new_super_region }
        match goSuperRegions rest s with
        | .error e => .error e
        | .ok (s', evs) => .ok (s', .per_setup_super_region a0 a1 :: evs)

/-- `Engine.on_setup_map_super_regions`, handler of
`^setup_map\s+super_regions\s+(.*)` with item regex `(\d+\s+\d)`: register each
declared super region, then invoke the completion callback. -/
def Engine.on_setup_map_super_regions (super_regions : List String) (s : Engine) :
    Except PyErr HandlerResult :=
  match goSuperRegions super_regions s with
  | .error e => .error e
  | .ok (s', evs) => .ok (s', evs ++ [.on_setup_super_region], [])

/-- Loop body of `on_setup_map_regions`: resolve the super region named by
field 1 (a `KeyError` if undeclared), build the `Region` from field 0, register
it and invoke the per-item callback. The created region is NOT appended to the
super region member list: the source constructs `Region(split[0], super_region)`
and never touches `super_region.regions`. -/
def goRegions : List String → Engine → Except PyErr (Engine × List Callback)
  | [], s => .ok (s, [])
  | region :: rest, s =>
    let split := pySplitSpace region
    match pyGetIdx split 1 with
    | .error e => .error e
    | .ok a1 =>
      match dictGet s.super_regions a1 with
      | .error e => .error e
      | .ok _super_region =>
        match pyGetIdx split 0 with
        | .error e => .error e
        | .ok a0 =>
          let new_region : Region :=
            { region_id := a0, super_region := a1, armies := 0, owner := "neutral"
              neighbours := [], extras := [] }
          let s := { s with regions := dictSet s.regions a0 new_region }
          match goRegions rest s with
          | .error e => .error e
          | .ok (s', evs) => .ok (s', .per_setup_region a1 a0 :: evs)

/-- `Engine.on_setup_map_regions`, handler of `^setup_map\s+regions\s+(.*)`
with item regex `(\d+\s+\d)`. -/
def Engine.on_setup_map_regions (regions : List String) (s : Engine) :
    Except PyErr HandlerResult :=
  match goRegions regions s with
  | .error e => .error e
  | .ok (s', evs) => .ok (s', evs ++ [.on_setup_region], [])

/-- Append one neighbour identity to the neighbour list of the region stored
under `rid` (the Python `region.neighbours.append(...)` through the dict-held
object reference). -/
def appendNeighbour (s : Engine) (rid nid : String) : Engine :=
  { s with regions := dictMapAt s.regions rid fun r => { r with neighbours := r.neighbours ++ [nid] } }

/-- Inner loop of `on_setup_map_neighbors` over the comma-separated neighbour
ids of one block: resolve each neighbour (`KeyError` if undeclared), append
each of the two regions to the other's neighbour list, invoke the per-relation
callback. -/
def goNeighborsInner (region_id : String) :
    List String → Engine → Except PyErr (Engine × List Callback)
  | [], s => .ok (s, [])
  | neighbor :: rest, s =>
    match dictGet s.regions neighbor with
    | .error e => .error e
    | .ok _new_neighbor =>
      let s := appendNeighbour s region_id neighbor
      let s := appendNeighbour s neighbor region_id
      match goNeighborsInner region_id rest s with
      | .error e => .error e
      | .ok (s', evs) => .ok (s', .per_setup_neighbor region_id neighbor :: evs)

/-- Outer loop of `on_setup_map_neighbors` over the extracted blocks: field 0
names the base region (resolved, `KeyError` if undeclared), field 1 is the
comma-separated neighbour id list. -/
def goNeighbors : List String → Engine → Except PyErr (Engine × List Callback)
  | [], s => .ok (s, [])
  | block :: rest, s =>
    let split := pySplitSpace block
    match pyGetIdx split 0 with
    | .error e => .error e
    | .ok a0 =>
      match dictGet s.regions a0 with
      | .error e => .error e
      | .ok _region =>
        match pyGetIdx split 1 with
        | .error e => .error e
        | .ok a1 =>
          let region_neighbors := pySplitComma a1
          match goNeighborsInner a0 region_neighbors s with
          | .error e => .error e
          | .ok (s1, evs1) =>
            match goNeighbors rest s1 with
            | .error e => .error e
            | .ok (s', evs) => .ok (s', evs1 ++ evs)

/-- `Engine.on_setup_map_neighbors`, handler of `^setup_map\s+neighbors\s+(.*)`
with item regex `(\d+\s+(?:[0-9,]*))`. -/
def Engine.on_setup_map_neighbors (neighbors : List String) (s : Engine) :
    Except PyErr HandlerResult :=
  match goNeighbors neighbors s with
  | .error e => .error e
  | .ok (s', evs) => .ok (s', evs ++ [.on_setup_neighbor], [])

/-- `Engine.on_settings_your_bot`, handler of
`^settings\s+your_bot\s+((?:[a-z][a-z0-9_]*))`. -/
def Engine.on_settings_your_bot (name : String) (s : Engine) :
    Except PyErr HandlerResult :=
  .ok ({ s with me := some name }, [.on_setting_me name], [])

/-- `Engine.on_settings_opponent_bot`, handler of
`^settings\s+opponent_bot\s+((?:[a-z][a-z0-9_]*))`. -/
def Engine.on_settings_opponent_bot (name : String) (s : Engine) :
    Except PyErr HandlerResult :=
  .ok ({ s with opponent := some name }, [.on_setting_opponent name], [])

/-- `Engine.on_settings_starting_armies`, handler of
`^settings\s+starting_armies\s+(\d+)`: store `int(armies)` and notify. -/
def Engine.on_settings_starting_armies (armies : String) (s : Engine) :
    Except PyErr HandlerResult :=
  match pyInt armies with
  | .error e => .error e
  | .ok n => .ok ({ s with starting_armies := n }, [.on_setting_starting_armies n], [])

/-- Loop body of `on_update_map`: resolve the region named by field 0
(`KeyError` if undeclared), overwrite its owner with field 1 and its army count
with `int(field 2)`, then invoke the per-item callback with the new values. -/
def goUpdateMap : List String → Engine → Except PyErr (Engine × List Callback)
  | [], s => .ok (s, [])
  | update :: rest, s =>
    let split := pySplitSpace update
    match pyGetIdx split 0 with
    | .error e => .error e
    | .ok a0 =>
      match dictGet s.regions a0 with
      | .error e => .error e
      | .ok _region =>
        match pyGetIdx split 1 with
        | .error e => .error e
        | .ok a1 =>
          let s := { s with regions := dictMapAt s.regions a0 fun r => { r with owner := a1 } }
          match pyGetIdx split 2 with
          | .error e => .error e
          | .ok a2 =>
            match pyInt a2 with
            | .error e => .error e
            | .ok armies =>
              let s := { s with regions := dictMapAt s.regions a0 fun r => { r with armies := armies } }
              match goUpdateMap rest s with
              | .error e => .error e
              | .ok (s', evs) => .ok (s', .per_update_map a0 a1 armies :: evs)

/-- `Engine.on_update_map`, handler of `^update_map\s+(.*)` with item regex
`(\d+\s+(?:[a-z][a-z0-9_]*)\s+\d+)`. -/
def Engine.on_update_map (updates : List String) (s : Engine) :
    Except PyErr HandlerResult :=
  match goUpdateMap updates s with
  | .error e => .error e
  | .ok (s', evs) => .ok (s', evs ++ [.on_update_map], [])

/-- The filter loop of `on_opponent_moves`: field 1 of each block is compared
with the two verb literals using the Python identity operator `is`
(`temp[1] is "place_armies"`, `temp[1] is "attack/transfer"` with the verb
literals written in single quotes in the source), embedded by
`pyIsFreshLit`. -/
def filterMoves : List String → Except PyErr (List String × List String)
  | [] => .ok ([], [])
  | block :: rest =>
    let temp := pySplitSpace block
    match pyGetIdx temp 1 with
    | .error e => .error e
    | .ok t1 =>
      match filterMoves rest with
      | .error e => .error e
      | .ok (placements, attacks_or_transfers) =>
        if pyIsFreshLit t1 "place_armies" then .ok (block :: placements, attacks_or_transfers)
        else if pyIsFreshLit t1 "attack/transfer" then .ok (placements, block :: attacks_or_transfers)
        else .ok (placements, attacks_or_transfers)

/-- The placement loop of `on_opponent_moves`: resolve the region named by
field 2, convert field 3, and invoke the per-placement callback. The army
mutation `region.armies += armies` is commented out in the source, so the
engine state is not changed. -/
def goOpponentPlacements : List String → Engine → Except PyErr (Engine × List Callback)
  | [], s => .ok (s, [])
  | block :: rest, s =>
    let temp := pySplitSpace block
    match pyGetIdx temp 2 with
    | .error e => .error e
    | .ok a2 =>
      match dictGet s.regions a2 with
      | .error e => .error e
      | .ok _region =>
        match pyGetIdx temp 3 with
        | .error e => .error e
        | .ok a3 =>
          match pyInt a3 with
          | .error e => .error e
          | .ok armies =>
            match goOpponentPlacements rest s with
            | .error e => .error e
            | .ok (s', evs) => .ok (s', .per_opponent_place_armies a2 armies :: evs)

/-- The attack/transfer loop of `on_opponent_moves`: resolve the region named
by field 2, convert field 3, and invoke the per-item callback; no state
mutation. -/
def goOpponentAttacks : List String → Engine → Except PyErr (Engine × List Callback)
  | [], s => .ok (s, [])
  | block :: rest, s =>
    let temp := pySplitSpace block
    match pyGetIdx temp 2 with
    | .error e => .error e
    | .ok a2 =>
      match dictGet s.regions a2 with
      | .error e => .error e
      | .ok _region =>
        match pyGetIdx temp 3 with
        | .error e => .error e
        | .ok a3 =>
          match pyInt a3 with
          | .error e => .error e
          | .ok armies =>
            match goOpponentAttacks rest s with
            | .error e => .error e
            | .ok (s', evs) => .ok (s', .per_opponent_attack_or_move a2 armies :: evs)

/-- `Engine.on_opponent_moves`, handler of `^opponent_moves\s+(.*)` with item
regex `((?:[a-z][a-z0-9_]*)\s+(?:place_armies|attack\/transfer)\s+\d+\s+\d+)`:
filter the blocks into placements and attack/transfers (via the identity
comparisons), run the placement loop and its completion callback, then the
attack/transfer loop and its completion callback. -/
def Engine.on_opponent_moves (args : List String) (s : Engine) :
    Except PyErr HandlerResult :=
  match filterMoves args with
  | .error e => .error e
  | .ok (placements, attacks_or_transfers) =>
    match goOpponentPlacements placements s with
    | .error e => .error e
    | .ok (s1, evsP) =>
      match goOpponentAttacks attacks_or_transfers s1 with
      | .error e => .error e
      | .ok (s2, evsA) =>
        .ok (s2, evsP ++ [.on_opponent_place_armies] ++ evsA ++ [.on_opponent_attack_or_move], [])

/-- The resolution loop of `on_pick_starting_regions` over `regions[1:]`: each
id must name a registered region (`KeyError` otherwise); the resolved object
list is passed to the decision callback and is recorded here by identity. -/
def resolvePickRegions : List String → Engine → Except PyErr (List String)
  | [], _ => .ok []
  | rid :: rest, s =>
    match dictGet s.regions rid with
    | .error e => .error e
    | .ok _region =>
      match resolvePickRegions rest s with
      | .error e => .error e
      | .ok tl => .ok (rid :: tl)

/-- `Engine.on_pick_starting_regions`, handler of `^pick_starting_regions\s+(.*)`
with item regex `(\d+)`: item 0 is the time budget, the remaining items are
resolved to region objects, the decision callback is invoked, and the response
queue is flushed via `respond`. -/
def Engine.on_pick_starting_regions (regions : List String) (s : Engine) :
    Except PyErr HandlerResult :=
  match pyGetIdx regions 0 with
  | .error e => .error e
  | .ok time =>
    match resolvePickRegions (regions.drop 1) s with
    | .error e => .error e
    | .ok temp_regions =>
      let (s', out) := Engine.respond s
      .ok (s', [.on_pick_starting_regions time temp_regions], [out])

/-- `Engine.on_go_place_armies`, handler of `^go\s+place_armies\s+(\d+)`:
invoke the mandatory decision callback with the captured time budget, then
flush the response queue via `respond`. -/
def Engine.on_go_place_armies (time : String) (s : Engine) :
    Except PyErr HandlerResult :=
  let (s', out) := Engine.respond s
  .ok (s', [.on_go_place_armies time], [out])

/-- `Engine.on_go_attack_or_transfer`, handler of `^go\s+attack\/transfer\s+(\d+)`:
invoke the mandatory decision callback with the captured time budget, then
flush the response queue via `respond`. -/
def Engine.on_go_attack_or_transfer (time : String) (s : Engine) :
    Except PyErr HandlerResult :=
  let (s', out) := Engine.respond s
  .ok (s', [.on_go_attack_or_transfer time], [out])

/-- The whitespace class `\s` of the Python `re` module on ASCII input. -/
def isPySpace (c : Char) : Bool :=
  c = ' ' || c = '\t' || c = '\n' || c = '\r' || c = '\x0b' || c = '\x0c'

/-- The class `[a-z]` under `re.IGNORECASE` on ASCII input. -/
def isAlphaCI (c : Char) : Bool :=
  ('a' ≤ c && c ≤ 'z') || ('A' ≤ c && c ≤ 'Z')

/-- The class `[a-z0-9_]` under `re.IGNORECASE` on ASCII input. -/
def isWordCI (c : Char) : Bool :=
  isAlphaCI c || c.isDigit || c = '_'

/-- Case-insensitive literal match (a literal under `re.IGNORECASE`):
consume the literal from the front, returning the remainder. -/
def dropLitCI : List Char → List Char → Option (List Char)
  | [], cs => some cs
  | _ :: _, [] => none
  | l :: ls, c :: cs => if c.toLower = l.toLower then dropLitCI ls cs else none

/-- The regex fragment `kw\s+` (case-insensitive literal, then one or more
whitespace characters, greedy). -/
def matchKeyword (kw : String) (cs : List Char) : Option (List Char) :=
  (dropLitCI kw.data cs).bind fun r =>
    match r with
    | c :: rest => if isPySpace c then some (rest.dropWhile isPySpace) else none
    | [] => none

/-- The capture group `(.*)`: everything up to the end of the string or the
first newline (`.` does not match a newline). -/
def captureRest (cs : List Char) : Option String :=
  some (String.mk (cs.takeWhile fun c => c ≠ '\n'))

/-- The capture group `(\d+)` (greedy, at least one digit). -/
def captureDigits (cs : List Char) : Option String :=
  match cs with
  | c :: _ => if c.isDigit then some (String.mk (cs.takeWhile Char.isDigit)) else none
  | [] => none

/-- The capture group `((?:[a-z][a-z0-9_]*))` under `re.IGNORECASE` (greedy). -/
def captureWord (cs : List Char) : Option String :=
  match cs with
  | c :: rest => if isAlphaCI c then some (String.mk (c :: rest.takeWhile isWordCI)) else none
  | [] => none

/-- The event regex `^setup_map\s+super_regions\s+(.*)` (IGNORECASE). -/
def pattern_setup_map_super_regions (message : String) : Option String :=
  (matchKeyword "setup_map" message.data).bind fun r =>
    (matchKeyword "super_regions" r).bind captureRest

/-- The event regex `^setup_map\s+regions\s+(.*)` (IGNORECASE). -/
def pattern_setup_map_regions (message : String) : Option String :=
  (matchKeyword "setup_map" message.data).bind fun r =>
    (matchKeyword "regions" r).bind captureRest

/-- The event regex `^setup_map\s+neighbors\s+(.*)` (IGNORECASE). -/
def pattern_setup_map_neighbors (message : String) : Option String :=
  (matchKeyword "setup_map" message.data).bind fun r =>
    (matchKeyword "neighbors" r).bind captureRest

/-- The event regex `^settings\s+your_bot\s+((?:[a-z][a-z0-9_]*))` (IGNORECASE). -/
def pattern_settings_your_bot (message : String) : Option String :=
  (matchKeyword "settings" message.data).bind fun r =>
    (matchKeyword "your_bot" r).bind captureWord

/-- The event regex `^settings\s+opponent_bot\s+((?:[a-z][a-z0-9_]*))` (IGNORECASE). -/
def pattern_settings_opponent_bot (message : String) : Option String :=
  (matchKeyword "settings" message.data).bind fun r =>
    (matchKeyword "opponent_bot" r).bind captureWord

/-- The event regex `^settings\s+starting_armies\s+(\d+)` (IGNORECASE). -/
def pattern_settings_starting_armies (message : String) : Option String :=
  (matchKeyword "settings" message.data).bind fun r =>
    (matchKeyword "starting_armies" r).bind captureDigits

/-- The event regex `^update_map\s+(.*)` (IGNORECASE). -/
def pattern_update_map (message : String) : Option String :=
  (matchKeyword "update_map" message.data).bind captureRest

/-- The event regex `^opponent_moves\s+(.*)` (IGNORECASE). -/
def pattern_opponent_moves (message : String) : Option String :=
  (matchKeyword "opponent_moves" message.data).bind captureRest

/-- The event regex `^pick_starting_regions\s+(.*)` (IGNORECASE). -/
def pattern_pick_starting_regions (message : String) : Option String :=
  (matchKeyword "pick_starting_regions" message.data).bind captureRest

/-- The event regex `^go\s+place_armies\s+(\d+)` (IGNORECASE). -/
def pattern_go_place_armies (message : String) : Option String :=
  (matchKeyword "go" message.data).bind fun r =>
    (matchKeyword "place_armies" r).bind captureDigits

/-- The event regex `^go\s+attack\/transfer\s+(\d+)` (IGNORECASE). -/
def pattern_go_attack_or_transfer (message : String) : Option String :=
  (matchKeyword "go" message.data).bind fun r =>
    (matchKeyword "attack/transfer" r).bind captureDigits

/-- A one-or-more greedy run of characters in the class `p` (the fragments
`\d+` and `\s+`): the run and the remainder, or no match. -/
def span1 (p : Char → Bool) (cs : List Char) : Option (List Char × List Char) :=
  match cs with
  | c :: _ => if p c then some (cs.takeWhile p, cs.dropWhile p) else none
  | [] => none

/-- The fragment `[a-z][a-z0-9_]*` under IGNORECASE (greedy): the word and the
remainder. -/
def spanWord (cs : List Char) : Option (List Char × List Char) :=
  match cs with
  | c :: rest =>
    if isAlphaCI c then some (c :: rest.takeWhile isWordCI, rest.dropWhile isWordCI)
    else none
  | [] => none

/-- Case-insensitive literal returning the consumed input characters together
with the remainder (the consumed text, not the pattern text, is what a match
contributes to `re.findall` results). -/
def takeLitCI : List Char → List Char → Option (List Char × List Char)
  | [], cs => some ([], cs)
  | _ :: _, [] => none
  | l :: ls, c :: cs =>
    if c.toLower = l.toLower then (takeLitCI ls cs).map fun p => (c :: p.1, p.2)
    else none

/-- One attempted match of the item regex `(\d+\s+\d)` at the head of the
input (used by both `setup_map super_regions` and `setup_map regions`). -/
def tm_id_pair (cs : List Char) : Option (String × List Char) :=
  (span1 Char.isDigit cs).bind fun dr =>
    (span1 isPySpace dr.2).bind fun sr =>
      match sr.2 with
      | c :: rest => if c.isDigit then some (String.mk (dr.1 ++ sr.1 ++ [c]), rest) else none
      | [] => none

/-- One attempted match of the item regex `(\d+\s+(?:[0-9,]*))` at the head of
the input (`setup_map neighbors`). -/
def tm_neighbors_item (cs : List Char) : Option (String × List Char) :=
  (span1 Char.isDigit cs).bind fun dr =>
    (span1 isPySpace dr.2).bind fun sr =>
      let tail := sr.2.takeWhile fun c => c.isDigit || c = ','
      some (String.mk (dr.1 ++ sr.1 ++ tail), sr.2.dropWhile fun c => c.isDigit || c = ',')

/-- One attempted match of the item regex
`(\d+\s+(?:[a-z][a-z0-9_]*)\s+\d+)` at the head of the input (`update_map`). -/
def tm_update_map_item (cs : List Char) : Option (String × List Char) :=
  (span1 Char.isDigit cs).bind fun dr =>
    (span1 isPySpace dr.2).bind fun s1 =>
      (spanWord s1.2).bind fun w =>
        (span1 isPySpace w.2).bind fun s2 =>
          (span1 Char.isDigit s2.2).bind fun d2 =>
            some (String.mk (dr.1 ++ s1.1 ++ w.1 ++ s2.1 ++ d2.1), d2.2)

/-- One attempted match of the item regex
`((?:[a-z][a-z0-9_]*)\s+(?:place_armies|attack\/transfer)\s+\d+\s+\d+)` at the
head of the input (`opponent_moves`); the alternation tries the branches in
order, and both alternatives begin with distinct letters. -/
def tm_opponent_moves_item (cs : List Char) : Option (String × List Char) :=
  (spanWord cs).bind fun w =>
    (span1 isPySpace w.2).bind fun s1 =>
      (match takeLitCI "place_armies".data s1.2 with
        | some v => some v
        | none => takeLitCI "attack/transfer".data s1.2).bind fun verb =>
        (span1 isPySpace verb.2).bind fun s2 =>
          (span1 Char.isDigit s2.2).bind fun d1 =>
            (span1 isPySpace d1.2).bind fun s3 =>
              (span1 Char.isDigit s3.2).bind fun d2 =>
                some (String.mk (w.1 ++ s1.1 ++ verb.1 ++ s2.1 ++ d1.1 ++ s3.1 ++ d2.1), d2.2)

/-- One attempted match of the item regex `(\d+)` at the head of the input
(`pick_starting_regions`). -/
def tm_digits_item (cs : List Char) : Option (String × List Char) :=
  (span1 Char.isDigit cs).bind fun dr => some (String.mk dr.1, dr.2)

/-- `re.findall(sub_pattern, group)`: scan left to right; at each position try
a match, emit it and resume after it, otherwise advance one character. The
fuel bounds the scan by the input length; every successful match of the item
regexes above consumes at least one character, so the fuel never runs out. -/
def findallAux (tm : List Char → Option (String × List Char)) :
    Nat → List Char → List String
  | 0, _ => []
  | _, [] => []
  | fuel + 1, c :: cs =>
    match tm (c :: cs) with
    | some (m, rest) => m :: findallAux tm fuel rest
    | none => findallAux tm fuel cs

/-- `re.findall` of an item regex over a captured group string. -/
def reFindall (tm : List Char → Option (String × List Char)) (group : String) :
    List String :=
  findallAux tm (group.data.length + 1) group.data

/-- The two argument shapes of a registered method: `temp(group)` when no item
regex is declared, `temp(re.findall(sub_pattern, group))` when one is. -/
inductive EventHandler where
  | plain (h : String → Engine → Except PyErr HandlerResult)
  | items (sub : List Char → Option (String × List Char))
      (h : List String → Engine → Except PyErr HandlerResult)

/-- One entry of `handler_methods`: the method name, its `@event` regex as a
matcher returning capture group 1, and the method body with its optional
`@event_item` regex. -/
structure EventEntry where
  method : String
  pattern : String → Option String
  handler : EventHandler

/-- Invoke one matched entry exactly as `_parse` does: apply the item regex to
the captured group when one is declared, otherwise pass the group itself. -/
def applyEntry (e : EventEntry) (group : String) (s : Engine) :
    Except PyErr HandlerResult :=
  match e.handler with
  | .plain h => h group s
  | .items sub h => h (reFindall sub group) s

def entry_on_go_attack_or_transfer : EventEntry :=
  { method := "on_go_attack_or_transfer"
    pattern := pattern_go_attack_or_transfer
    handler := .plain Engine.on_go_attack_or_transfer }

def entry_on_go_place_armies : EventEntry :=
  { method := "on_go_place_armies"
    pattern := pattern_go_place_armies
    handler := .plain Engine.on_go_place_armies }

def entry_on_opponent_moves : EventEntry :=
  { method := "on_opponent_moves"
    pattern := pattern_opponent_moves
    handler := .items tm_opponent_moves_item Engine.on_opponent_moves }

def entry_on_pick_starting_regions : EventEntry :=
  { method := "on_pick_starting_regions"
    pattern := pattern_pick_starting_regions
    handler := .items tm_digits_item Engine.on_pick_starting_regions }

def entry_on_settings_opponent_bot : EventEntry :=
  { method := "on_settings_opponent_bot"
    pattern := pattern_settings_opponent_bot
    handler := .plain Engine.on_settings_opponent_bot }

def entry_on_settings_starting_armies : EventEntry :=
  { method := "on_settings_starting_armies"
    pattern := pattern_settings_starting_armies
    handler := .plain Engine.on_settings_starting_armies }

def entry_on_settings_your_bot : EventEntry :=
  { method := "on_settings_your_bot"
    pattern := pattern_settings_your_bot
    handler := .plain Engine.on_settings_your_bot }

def entry_on_setup_map_neighbors : EventEntry :=
  { method := "on_setup_map_neighbors"
    pattern := pattern_setup_map_neighbors
    handler := .items tm_neighbors_item Engine.on_setup_map_neighbors }

def entry_on_setup_map_regions : EventEntry :=
  { method := "on_setup_map_regions"
    pattern := pattern_setup_map_regions
    handler := .items tm_id_pair Engine.on_setup_map_regions }

def entry_on_setup_map_super_regions : EventEntry :=
  { method := "on_setup_map_super_regions"
    pattern := pattern_setup_map_super_regions
    handler := .items tm_id_pair Engine.on_setup_map_super_regions }

def entry_on_update_map : EventEntry :=
  { method := "on_update_map"
    pattern := pattern_update_map
    handler := .items tm_update_map_item Engine.on_update_map }

/-- `self.handler_methods`, the methods of `Engine` whose names match
`^(on_*.)` and that carry an `@event` pattern, in the sorted order `dir(self)`
produces. -/
def Engine.handler_methods : List EventEntry :=
  [ entry_on_go_attack_or_transfer
  , entry_on_go_place_armies
  , entry_on_opponent_moves
  , entry_on_pick_starting_regions
  , entry_on_settings_opponent_bot
  , entry_on_settings_starting_armies
  , entry_on_settings_your_bot
  , entry_on_setup_map_neighbors
  , entry_on_setup_map_regions
  , entry_on_setup_map_super_regions
  , entry_on_update_map ]

/-- The loop of `Engine._parse` over a list of registered methods: every
method whose pattern matches the message is invoked in turn on the evolving
state; an exception in a handler propagates out of the loop. -/
def runMatching : List EventEntry → Engine → String → Except PyErr HandlerResult
  | [], s, _ => .ok (s, [], [])
  | e :: es, s, message =>
    match e.pattern message with
    | none => runMatching es s message
    | some group =>
      match applyEntry e group s with
      | .error err => .error err
      | .ok (s1, t1, o1) =>
        match runMatching es s1 message with
        | .error err => .error err
        | .ok (s2, t2, o2) => .ok (s2, t1 ++ t2, o1 ++ o2)

/-- `Engine._parse`: run the message against every registered method. -/
def Engine.parse (message : String) (s : Engine) : Except PyErr HandlerResult :=
  runMatching Engine.handler_methods s message

/-- The possible outcomes of one observation of `Engine.run`. -/
inductive RunOutcome where
  | finished
  | raised (e : PyErr)
  deriving DecidableEq, Repr

/-- `Engine.run`, with the input stream modelled as the list of lines
`sys.stdin.readline()` will deliver (each non-empty, ending in a newline) and
one unit of fuel per loop iteration. Reading past the end of the stream
returns the empty string (a pipe at end-of-input does not raise `EOFError` and
does not become `closed`), which the loop skips with `continue`; so the
`while not sys.stdin.closed` condition stays true forever. `some .finished`
is a graceful exit through an `except` clause, `some (.raised e)` an uncaught
exception terminating the process, and `none` means the loop is still running
when the fuel runs out. -/
def Engine.runFuel : Nat → Engine → List String → Option RunOutcome
  | 0, _, _ => none
  | fuel + 1, s, input =>
    match input with
    | [] => Engine.runFuel fuel s []
    | message :: rest =>
      if message.length = 0 then Engine.runFuel fuel s rest
      else
        match Engine.parse message s with
        | .ok (s1, _, _) => Engine.runFuel fuel s1 rest
        | .error .keyboardInterrupt => some .finished
        | .error .eofError => some .finished
        | .error e => some (.raised e)

/-! ### Helper lemmas about the Python primitives -/

theorem string_mk_data (s : String) : String.mk s.data = s := rfl

theorem splitCharList_ne_nil (sep : Char) (cs : List Char) :
    splitCharList sep cs ≠ [] := by
  induction cs with
  | nil => simp [splitCharList]
  | cons c cs ih =>
    simp only [splitCharList]
    split
    · simp
    · split
      · simp
      · simp

theorem splitCharList_no_sep (sep : Char) (a : List Char) (h : ∀ c ∈ a, c ≠ sep) :
    splitCharList sep a = [a] := by
  induction a with
  | nil => rfl
  | cons c a ih =>
    have hc : c ≠ sep := h c (List.mem_cons_self c a)
    have ha : ∀ x ∈ a, x ≠ sep := fun x hx => h x (List.mem_cons_of_mem c hx)
    simp only [splitCharList, if_neg hc, ih ha]

theorem splitCharList_append (sep : Char) (a rest : List Char)
    (h : ∀ c ∈ a, c ≠ sep) :
    splitCharList sep (a ++ sep :: rest) = a :: splitCharList sep rest := by
  induction a with
  | nil => simp [splitCharList]
  | cons c a ih =>
    have hc : c ≠ sep := h c (List.mem_cons_self c a)
    have ha : ∀ x ∈ a, x ≠ sep := fun x hx => h x (List.mem_cons_of_mem c hx)
    simp only [List.cons_append, splitCharList, if_neg hc, List.append_eq]
    rw [ih ha]

/-- The item fields the claims quantify over contain no space character (they
are produced by space-delimited captures). -/
def noSpace (s : String) : Prop := ∀ c ∈ s.data, c ≠ ' '

instance decNoSpace (s : String) : Decidable (noSpace s) :=
  inferInstanceAs (Decidable (∀ c ∈ s.data, c ≠ ' '))

/-- A neighbour id field additionally contains no comma (commas separate the
ids inside the field). -/
def plainId (s : String) : Prop := ∀ c ∈ s.data, c ≠ ' ' ∧ c ≠ ','

instance decPlainId (s : String) : Decidable (plainId s) :=
  inferInstanceAs (Decidable (∀ c ∈ s.data, c ≠ ' ' ∧ c ≠ ','))

theorem plainId.toNoSpace {s : String} (h : plainId s) : noSpace s :=
  fun c hc => (h c hc).1

theorem pySplitSpace_pair (a b : String) (ha : noSpace a) (hb : noSpace b) :
    pySplitSpace (a ++ " " ++ b) = [a, b] := by
  unfold pySplitSpace
  have hd : (a ++ " " ++ b).data = a.data ++ ' ' :: b.data := by
    simp [String.data_append]
  rw [hd, splitCharList_append _ _ _ ha, splitCharList_no_sep _ _ hb]
  simp [string_mk_data]

theorem pySplitSpace_triple (a b c : String)
    (ha : noSpace a) (hb : noSpace b) (hc : noSpace c) :
    pySplitSpace (a ++ " " ++ b ++ " " ++ c) = [a, b, c] := by
  unfold pySplitSpace
  have hd : (a ++ " " ++ b ++ " " ++ c).data = a.data ++ ' ' :: (b.data ++ ' ' :: c.data) := by
    simp [String.data_append]
  rw [hd, splitCharList_append _ _ _ ha, splitCharList_append _ _ _ hb,
    splitCharList_no_sep _ _ hc]
  simp [string_mk_data]

theorem pySplitComma_single (a : String) (ha : plainId a) :
    pySplitComma a = [a] := by
  unfold pySplitComma
  rw [splitCharList_no_sep _ _ fun c hc => (ha c hc).2]
  simp [string_mk_data]

theorem dictGet_dictSet_self {α : Type} (d : List (String × α)) (k : String) (v : α) :
    dictGet (dictSet d k v) k = .ok v := by
  induction d with
  | nil => simp [dictSet, dictGet]
  | cons p rest ih =>
    obtain ⟨k', v'⟩ := p
    by_cases h : k' = k
    · subst h; simp [dictSet, dictGet]
    · simp [dictSet, dictGet, h, ih]

theorem dictGet_dictMapAt_self {α : Type} (d : List (String × α)) (k : String)
    (f : α → α) (v : α) (h : dictGet d k = .ok v) :
    dictGet (dictMapAt d k f) k = .ok (f v) := by
  induction d with
  | nil => simp [dictGet] at h
  | cons p rest ih =>
    obtain ⟨k', v'⟩ := p
    by_cases hk : k' = k
    · subst hk
      have hv : v' = v := by simpa [dictGet] using h
      simp [dictMapAt, dictGet, hv]
    · simp only [dictGet, if_neg hk] at h
      simp [dictMapAt, dictGet, hk, ih h]

theorem dictGet_dictMapAt_ne {α : Type} (d : List (String × α)) (k q : String)
    (f : α → α) (h : q ≠ k) :
    dictGet (dictMapAt d k f) q = dictGet d q := by
  induction d with
  | nil => simp [dictMapAt]
  | cons p rest ih =>
    obtain ⟨k', v'⟩ := p
    by_cases hk : k' = k
    · subst hk
      have hkq : ¬ k' = q := fun hx => h hx.symm
      simp [dictMapAt, dictGet, hkq]
    · by_cases hq : k' = q
      · subst hq
        simp [dictMapAt, dictGet, hk]
      · simp [dictMapAt, dictGet, hk, hq, ih]

/-! ### Behaviour of one map-update item -/

/-- Evaluation of `on_update_map` on a single well-formed item: the region
named first is overwritten (owner first, then army count) and the two
callbacks fire. -/
theorem on_update_map_single (s : Engine) (rid o n : String) (r0 : Region) (v : Int)
    (hrid : noSpace rid) (ho : noSpace o) (hn : noSpace n)
    (hr : dictGet s.regions rid = .ok r0) (hv : pyInt n = .ok v) :
    Engine.on_update_map [rid ++ " " ++ o ++ " " ++ n] s
      = .ok ({ s with regions := dictMapAt (dictMapAt s.regions rid fun r => { r with owner := o }) rid fun r => { r with armies := v } }, [.per_update_map rid o v, .on_update_map], []) := by
  unfold Engine.on_update_map goUpdateMap
  rw [pySplitSpace_triple rid o n hrid ho hn]
  simp [pyGetIdx, List.get?, hr, hv, goUpdateMap]

/-- Claim C5: a map-update item naming a registered region overwrites the
owner and the army count with the given values, never accumulating: two
successive updates of the same region leave the army count of the second one,
whatever the first one and the prior count were. -/
theorem claim_c5_update_map_overwrites
    (s : Engine) (rid o1 o2 n1 n2 : String) (r0 : Region) (v1 v2 : Int)
    (hrid : noSpace rid) (ho1 : noSpace o1) (ho2 : noSpace o2)
    (hn1 : noSpace n1) (hn2 : noSpace n2)
    (hr : dictGet s.regions rid = .ok r0)
    (hv1 : pyInt n1 = .ok v1) (hv2 : pyInt n2 = .ok v2) :
    ∃ s1 s2 : Engine,
      Engine.on_update_map [rid ++ " " ++ o1 ++ " " ++ n1] s
        = .ok (s1, [.per_update_map rid o1 v1, .on_update_map], []) ∧
      Engine.on_update_map [rid ++ " " ++ o2 ++ " " ++ n2] s1
        = .ok (s2, [.per_update_map rid o2 v2, .on_update_map], []) ∧
      dictGet s1.regions rid = .ok { r0 with owner := o1, armies := v1 } ∧
      dictGet s2.regions rid = .ok { r0 with owner := o2, armies := v2 } := by
  have hl1a := dictGet_dictMapAt_self s.regions rid (fun r => { r with owner := o1 }) r0 hr
  have hl1 : dictGet (dictMapAt (dictMapAt s.regions rid fun r => { r with owner := o1 }) rid fun r => { r with armies := v1 }) rid = .ok { r0 with owner := o1, armies := v1 } :=
    dictGet_dictMapAt_self _ rid (fun r => { r with armies := v1 }) _ hl1a
  have step1 := on_update_map_single s rid o1 n1 r0 v1 hrid ho1 hn1 hr hv1
  have step2 := on_update_map_single
    { s with regions := dictMapAt (dictMapAt s.regions rid fun r => { r with owner := o1 }) rid fun r => { r with armies := v1 } }
    rid o2 n2 { r0 with owner := o1, armies := v1 } v2 hrid ho2 hn2 hl1 hv2
  have hl2a := dictGet_dictMapAt_self _ rid (fun r => { r with owner := o2 }) _ hl1
  have hl2 := dictGet_dictMapAt_self _ rid (fun r => { r with armies := v2 }) _ hl2a
  exact ⟨_, _, step1, step2, hl1, hl2⟩

/-- Witness for C5: the claim instance, region `10` updated with `(p1, 5)` and
then `(p1, 3)`, ending with army count `3`. -/
theorem claim_c5_witness :
    ∃ s1 s2 : Engine,
      Engine.on_update_map ["10 p1 5"] { Engine.init with
          regions := [("10", ⟨"10", "1", 0, "neutral", [], []⟩)] }
        = .ok (s1, [.per_update_map "10" "p1" 5, .on_update_map], []) ∧
      Engine.on_update_map ["10 p1 3"] s1
        = .ok (s2, [.per_update_map "10" "p1" 3, .on_update_map], []) ∧
      dictGet s1.regions "10" = .ok ⟨"10", "1", 5, "p1", [], []⟩ ∧
      dictGet s2.regions "10" = .ok ⟨"10", "1", 3, "p1", [], []⟩ :=
  claim_c5_update_map_overwrites
    { Engine.init with regions := [("10", ⟨"10", "1", 0, "neutral", [], []⟩)] }
    "10" "p1" "p1" "5" "3" ⟨"10", "1", 0, "neutral", [], []⟩ 5 3
    (by decide) (by decide) (by decide) (by decide) (by decide) rfl rfl rfl

/-- Claim C6: for every turn-trigger message — the two go turns and the
starting-regions offer — whose decision callback leaves the response queue
empty, the flushed output line is exactly the canonical no-op line `No moves`
(newline-terminated on the stream), and after every flush the response queue
is empty again. -/
theorem claim_c6_empty_flush_no_moves (time : String) (s : Engine)
    (h : s.responses = []) :
    Engine.on_go_place_armies time s
      = .ok ({ s with responses := [] }, [.on_go_place_armies time], ["No moves\n"]) ∧
    Engine.on_go_attack_or_transfer time s
      = .ok ({ s with responses := [] }, [.on_go_attack_or_transfer time], ["No moves\n"]) ∧
    (∀ items ids : List String,
      pyGetIdx items 0 = .ok time →
      resolvePickRegions (items.drop 1) s = .ok ids →
      Engine.on_pick_starting_regions items s
        = .ok ({ s with responses := [] }, [.on_pick_starting_regions time ids],
            ["No moves\n"])) ∧
    ∀ s2 : Engine, (Engine.respond s2).1.responses = [] := by
  refine ⟨?_, ?_, ?_, fun s2 => rfl⟩
  · simp [Engine.on_go_place_armies, Engine.respond, Engine.do_no_moves, h, pyJoin]
  · simp [Engine.on_go_attack_or_transfer, Engine.respond, Engine.do_no_moves, h, pyJoin]
  · intro items ids h0 hres
    rw [List.drop_one] at hres
    simp [Engine.on_pick_starting_regions, h0, hres, Engine.respond,
      Engine.do_no_moves, h, pyJoin]

/-- Witness for C6: end-to-end scenario 5 of the specification, a
`go place_armies 1000` turn with an empty queue flushing `No moves`, and a
`pick_starting_regions` offer of the registered region 10, likewise flushing
`No moves`. -/
theorem claim_c6_witness :
    Engine.init.responses = [] ∧
    Engine.on_go_place_armies "1000" Engine.init
      = .ok ({ Engine.init with responses := [] }, [.on_go_place_armies "1000"],
          ["No moves\n"]) ∧
    Engine.on_pick_starting_regions ["2000", "10"]
        { Engine.init with regions := [("10", ⟨"10", "1", 0, "neutral", [], []⟩)] }
      = .ok ({ Engine.init with regions := [("10", ⟨"10", "1", 0, "neutral", [], []⟩)] },
          [.on_pick_starting_regions "2000" ["10"]], ["No moves\n"]) :=
  ⟨rfl, (claim_c6_empty_flush_no_moves "1000" Engine.init rfl).1,
    (claim_c6_empty_flush_no_moves "2000"
        { Engine.init with regions := [("10", ⟨"10", "1", 0, "neutral", [], []⟩)] }
        rfl).2.2.1 ["2000", "10"] ["10"] rfl rfl⟩

/-! ### Behaviour of one neighbour declaration -/

/-- Evaluation of `on_setup_map_neighbors` on a single two-region block: both
regions must be registered, then each is appended to the neighbour list of the
other (base region first), and the per-relation and completion callbacks
fire. -/
theorem on_setup_map_neighbors_single (s : Engine) (a b : String) (ra rb : Region)
    (hpa : plainId a) (hpb : plainId b)
    (hra : dictGet s.regions a = .ok ra) (hrb : dictGet s.regions b = .ok rb) :
    Engine.on_setup_map_neighbors [a ++ " " ++ b] s
      = .ok ({ s with regions := dictMapAt (dictMapAt s.regions a fun r => { r with neighbours := r.neighbours ++ [b] }) b fun r => { r with neighbours := r.neighbours ++ [a] } }, [.per_setup_neighbor a b, .on_setup_neighbor], []) := by
  unfold Engine.on_setup_map_neighbors goNeighbors
  rw [pySplitSpace_pair a b hpa.toNoSpace hpb.toNoSpace]
  simp [pyGetIdx, List.get?, hra, hrb, pySplitComma_single b hpb,
    goNeighborsInner, appendNeighbour, goNeighbors]

/-- Claim C7: a neighbour declaration linking two registered regions appends
each region to the neighbour list of the other (both directions together),
and declaring the same pair a second time appends it a second time to both
lists. -/
theorem claim_c7_neighbors_symmetric (s : Engine) (a b : String) (ra rb : Region)
    (hab : a ≠ b) (hpa : plainId a) (hpb : plainId b)
    (hra : dictGet s.regions a = .ok ra) (hrb : dictGet s.regions b = .ok rb) :
    ∃ s1 s2 : Engine,
      Engine.on_setup_map_neighbors [a ++ " " ++ b] s
        = .ok (s1, [.per_setup_neighbor a b, .on_setup_neighbor], []) ∧
      dictGet s1.regions a = .ok { ra with neighbours := ra.neighbours ++ [b] } ∧
      dictGet s1.regions b = .ok { rb with neighbours := rb.neighbours ++ [a] } ∧
      Engine.on_setup_map_neighbors [a ++ " " ++ b] s1
        = .ok (s2, [.per_setup_neighbor a b, .on_setup_neighbor], []) ∧
      dictGet s2.regions a = .ok { ra with neighbours := ra.neighbours ++ [b, b] } ∧
      dictGet s2.regions b = .ok { rb with neighbours := rb.neighbours ++ [a, a] } := by
  have hba : b ≠ a := fun hx => hab hx.symm
  have step1 := on_setup_map_neighbors_single s a b ra rb hpa hpb hra hrb
  have ha1 : dictGet (dictMapAt (dictMapAt s.regions a fun r => { r with neighbours := r.neighbours ++ [b] }) b fun r => { r with neighbours := r.neighbours ++ [a] }) a = .ok { ra with neighbours := ra.neighbours ++ [b] } := by
    rw [dictGet_dictMapAt_ne _ b a _ hab]
    exact dictGet_dictMapAt_self _ a _ ra hra
  have hb1 : dictGet (dictMapAt (dictMapAt s.regions a fun r => { r with neighbours := r.neighbours ++ [b] }) b fun r => { r with neighbours := r.neighbours ++ [a] }) b = .ok { rb with neighbours := rb.neighbours ++ [a] } :=
    dictGet_dictMapAt_self _ b _ rb
      ((dictGet_dictMapAt_ne s.regions a b _ hba).trans hrb)
  have step2 := on_setup_map_neighbors_single
    { s with regions := dictMapAt (dictMapAt s.regions a fun r => { r with neighbours := r.neighbours ++ [b] }) b fun r => { r with neighbours := r.neighbours ++ [a] } }
    a b { ra with neighbours := ra.neighbours ++ [b] } { rb with neighbours := rb.neighbours ++ [a] }
    hpa hpb ha1 hb1
  have ha2 : dictGet (dictMapAt (dictMapAt (dictMapAt (dictMapAt s.regions a fun r => { r with neighbours := r.neighbours ++ [b] }) b fun r => { r with neighbours := r.neighbours ++ [a] }) a fun r => { r with neighbours := r.neighbours ++ [b] }) b fun r => { r with neighbours := r.neighbours ++ [a] }) a = .ok { ra with neighbours := (ra.neighbours ++ [b]) ++ [b] } := by
    rw [dictGet_dictMapAt_ne _ b a _ hab]
    exact dictGet_dictMapAt_self _ a _ _ ha1
  have hb2 : dictGet (dictMapAt (dictMapAt (dictMapAt (dictMapAt s.regions a fun r => { r with neighbours := r.neighbours ++ [b] }) b fun r => { r with neighbours := r.neighbours ++ [a] }) a fun r => { r with neighbours := r.neighbours ++ [b] }) b fun r => { r with neighbours := r.neighbours ++ [a] }) b = .ok { rb with neighbours := (rb.neighbours ++ [a]) ++ [a] } :=
    dictGet_dictMapAt_self _ b _ _
      ((dictGet_dictMapAt_ne _ a b _ hba).trans hb1)
  have ha2' : dictGet (dictMapAt (dictMapAt (dictMapAt (dictMapAt s.regions a fun r => { r with neighbours := r.neighbours ++ [b] }) b fun r => { r with neighbours := r.neighbours ++ [a] }) a fun r => { r with neighbours := r.neighbours ++ [b] }) b fun r => { r with neighbours := r.neighbours ++ [a] }) a = .ok { ra with neighbours := ra.neighbours ++ [b, b] } := by
    simpa using ha2
  have hb2' : dictGet (dictMapAt (dictMapAt (dictMapAt (dictMapAt s.regions a fun r => { r with neighbours := r.neighbours ++ [b] }) b fun r => { r with neighbours := r.neighbours ++ [a] }) a fun r => { r with neighbours := r.neighbours ++ [b] }) b fun r => { r with neighbours := r.neighbours ++ [a] }) b = .ok { rb with neighbours := rb.neighbours ++ [a, a] } := by
    simpa using hb2
  exact ⟨_, _, step1, ha1, hb1, step2, ha2', hb2'⟩

/-- Witness for C7, end-to-end scenario 3 of the specification: declaring
regions `10` and `11` as neighbours makes them mutual neighbours, and a second
declaration appends a second copy to both lists. -/
theorem claim_c7_witness :
    ∃ s1 s2 : Engine,
      Engine.on_setup_map_neighbors ["10 11"] { Engine.init with
          regions := [("10", ⟨"10", "1", 0, "neutral", [], []⟩),
            ("11", ⟨"11", "1", 0, "neutral", [], []⟩)] }
        = .ok (s1, [.per_setup_neighbor "10" "11", .on_setup_neighbor], []) ∧
      dictGet s1.regions "10" = .ok ⟨"10", "1", 0, "neutral", ["11"], []⟩ ∧
      dictGet s1.regions "11" = .ok ⟨"11", "1", 0, "neutral", ["10"], []⟩ ∧
      Engine.on_setup_map_neighbors ["10 11"] s1
        = .ok (s2, [.per_setup_neighbor "10" "11", .on_setup_neighbor], []) ∧
      dictGet s2.regions "10" = .ok ⟨"10", "1", 0, "neutral", ["11", "11"], []⟩ ∧
      dictGet s2.regions "11" = .ok ⟨"11", "1", 0, "neutral", ["10", "10"], []⟩ :=
  claim_c7_neighbors_symmetric
    { Engine.init with regions := [("10", ⟨"10", "1", 0, "neutral", [], []⟩),
        ("11", ⟨"11", "1", 0, "neutral", [], []⟩)] }
    "10" "11" ⟨"10", "1", 0, "neutral", [], []⟩ ⟨"11", "1", 0, "neutral", [], []⟩
    (by decide) (by decide) (by decide) rfl rfl

/-! ### Behaviour of one super-region declaration -/

/-- Evaluation of `on_setup_map_super_regions` on a single well-formed item:
the declared super region is registered under its id with the declared reward
token, and the per-item and completion callbacks fire. -/
theorem on_setup_map_super_regions_single (s : Engine) (idt rwt : String)
    (hid : noSpace idt) (hrw : noSpace rwt) :
    Engine.on_setup_map_super_regions [idt ++ " " ++ rwt] s
      = .ok ({ s with super_regions := dictSet s.super_regions idt ⟨idt, rwt, [], []⟩ }, [.per_setup_super_region idt rwt, .on_setup_super_region], []) := by
  unfold Engine.on_setup_map_super_regions goSuperRegions
  rw [pySplitSpace_pair idt rwt hid hrw]
  simp [pyGetIdx, List.get?, goSuperRegions]

/-- Claim C8: a valid super-region declaration item registers a SuperRegion
whose reward equals the declared reward token, retrievable by its id
afterward; and the end-to-end scenario, dispatching the full line
`setup_map super_regions 1 5 2 3`, yields two super regions with ids 1, 2 and
rewards 5, 3. -/
theorem claim_c8_super_region_registration (s : Engine) (idt rwt : String)
    (hid : noSpace idt) (hrw : noSpace rwt) :
    (∃ s1 : Engine,
      Engine.on_setup_map_super_regions [idt ++ " " ++ rwt] s
        = .ok (s1, [.per_setup_super_region idt rwt, .on_setup_super_region], []) ∧
      dictGet s1.super_regions idt = .ok ⟨idt, rwt, [], []⟩) ∧
    ∃ r : HandlerResult,
      Engine.parse "setup_map super_regions 1 5 2 3\n" Engine.init = .ok r ∧
      dictGet r.1.super_regions "1" = .ok ⟨"1", "5", [], []⟩ ∧
      dictGet r.1.super_regions "2" = .ok ⟨"2", "3", [], []⟩ := by
  constructor
  · exact ⟨_, on_setup_map_super_regions_single s idt rwt hid hrw,
      dictGet_dictSet_self _ idt _⟩
  · exact ⟨_, rfl, rfl, rfl⟩

/-- Witness for C8 at the concrete declaration `(1, 5)` from the initial
state. -/
theorem claim_c8_witness :
    ∃ s1 : Engine,
      Engine.on_setup_map_super_regions ["1 5"] Engine.init
        = .ok (s1, [.per_setup_super_region "1" "5", .on_setup_super_region], []) ∧
      dictGet s1.super_regions "1" = .ok ⟨"1", "5", [], []⟩ :=
  (claim_c8_super_region_registration Engine.init "1" "5" (by decide) (by decide)).1

/-! ### The opponent-moves filter -/

/-- The identity comparisons in the filter loop classify no block, whatever
its verb field: every block with at least two space-separated fields falls
through both branches. -/
theorem filterMoves_classifies_nothing (args : List String)
    (h : ∀ a ∈ args, 1 < (pySplitSpace a).length) :
    filterMoves args = .ok ([], []) := by
  induction args with
  | nil => rfl
  | cons a rest ih =>
    have h1 : 1 < (pySplitSpace a).length := h a (List.mem_cons_self a rest)
    have hrest := ih fun x hx => h x (List.mem_cons_of_mem a hx)
    have hv : (pySplitSpace a)[1]? = some ((pySplitSpace a).get ⟨1, h1⟩) := by
      rw [List.getElem?_eq_getElem h1]
      rfl
    simp [filterMoves, pyGetIdx, hv, hrest, pyIsFreshLit]

/-- Claim C10: on every opponent-moves line (whose extracted blocks always
carry four space-separated fields), the placement-completion callback and the
attack/transfer-completion callback each fire exactly once, in that order,
also when there are no records of the corresponding kind. -/
theorem claim_c10_completion_callbacks_once (args : List String) (s : Engine)
    (h : ∀ a ∈ args, 1 < (pySplitSpace a).length) :
    Engine.on_opponent_moves args s
      = .ok (s, [.on_opponent_place_armies, .on_opponent_attack_or_move], []) := by
  unfold Engine.on_opponent_moves
  rw [filterMoves_classifies_nothing args h]
  rfl

/-- Witness for C10: a line with one placement record, and a line with no
record at all, both fire exactly the two completion callbacks in order. -/
theorem claim_c10_witness :
    Engine.on_opponent_moves ["player1 place_armies 1 5"] Engine.init
      = .ok (Engine.init, [.on_opponent_place_armies, .on_opponent_attack_or_move], []) ∧
    Engine.on_opponent_moves [] Engine.init
      = .ok (Engine.init, [.on_opponent_place_armies, .on_opponent_attack_or_move], []) :=
  ⟨claim_c10_completion_callbacks_once _ _ (by decide),
   claim_c10_completion_callbacks_once _ _ (by decide)⟩

/-! ### The dispatch loop -/

/-- A message matching no registered pattern leaves the state unchanged,
invokes no handler and writes nothing. -/
theorem runMatching_no_match (es : List EventEntry) (s : Engine) (message : String)
    (h : ∀ e ∈ es, e.pattern message = none) :
    runMatching es s message = .ok (s, [], []) := by
  induction es with
  | nil => rfl
  | cons e es ih =>
    have he : e.pattern message = none := h e (List.mem_cons_self e es)
    have hes := ih fun x hx => h x (List.mem_cons_of_mem e hx)
    simp [runMatching, he, hes]

/-- A message matched by exactly one entry makes the parse loop equal to that
one method invocation. -/
theorem runMatching_single (es : List EventEntry) (s : Engine) (message : String)
    (e : EventEntry) (group : String)
    (hf : es.filter (fun x => (x.pattern message).isSome) = [e])
    (hg : e.pattern message = some group) :
    runMatching es s message = applyEntry e group s := by
  induction es generalizing s with
  | nil => simp at hf
  | cons f fs ih =>
    by_cases hfm : (f.pattern message).isSome
    · have hfe : f = e ∧ fs.filter (fun x => (x.pattern message).isSome) = [] := by
        simpa [List.filter_cons, hfm] using hf
      obtain ⟨rfl, hnil⟩ := hfe
      have hnone : ∀ x ∈ fs, x.pattern message = none := by
        intro x hx
        exact Option.not_isSome_iff_eq_none.mp (List.filter_eq_nil_iff.mp hnil x hx)
      simp only [runMatching, hg]
      cases hap : applyEntry f group s with
      | error err => rfl
      | ok res =>
        obtain ⟨s1, t1, o1⟩ := res
        simp [runMatching_no_match fs s1 message hnone]
    · have hne : f.pattern message = none := Option.not_isSome_iff_eq_none.mp hfm
      have hf' : fs.filter (fun x => (x.pattern message).isSome) = [e] := by
        simpa [List.filter_cons, hfm] using hf
      simp only [runMatching, hne]
      exact ih s hf'

/-- Claim C4: a line matching no registered pattern leaves the whole engine
state unchanged, invokes no collaborator callback and writes nothing; and on
a line matched by exactly one registry entry, exactly that one handler
fires. -/
theorem claim_c4_dispatch_exclusive :
    (∀ (s : Engine) (message : String),
      Engine.handler_methods.filter (fun x => (x.pattern message).isSome) = [] →
      Engine.parse message s = .ok (s, [], [])) ∧
    (∀ (s : Engine) (message : String) (e : EventEntry) (group : String),
      Engine.handler_methods.filter (fun x => (x.pattern message).isSome) = [e] →
      e.pattern message = some group →
      Engine.parse message s = applyEntry e group s) := by
  constructor
  · intro s message h
    refine runMatching_no_match _ s message fun x hx => ?_
    exact Option.not_isSome_iff_eq_none.mp (List.filter_eq_nil_iff.mp h x hx)
  · intro s message e group hf hg
    exact runMatching_single _ s message e group hf hg

/-- Witness for C4: the line `hello world` matches no pattern and is dropped
without any effect; the line `go place_armies 1000` matches exactly the
`on_go_place_armies` entry and dispatch equals that single invocation. -/
theorem claim_c4_witness :
    Engine.handler_methods.filter (fun x => (x.pattern "hello world\n").isSome) = [] ∧
    Engine.parse "hello world\n" Engine.init = .ok (Engine.init, [], []) ∧
    Engine.handler_methods.filter
        (fun x => (x.pattern "go place_armies 1000\n").isSome)
      = [entry_on_go_place_armies] ∧
    Engine.parse "go place_armies 1000\n" Engine.init
      = applyEntry entry_on_go_place_armies "1000" Engine.init := by
  refine ⟨rfl, ?_, rfl, ?_⟩
  · exact claim_c4_dispatch_exclusive.1 Engine.init "hello world\n" rfl
  · exact claim_c4_dispatch_exclusive.2 Engine.init "go place_armies 1000\n"
      entry_on_go_place_armies "1000" rfl rfl

/-! ### The latent defects -/

/-- Claim C1, evaluation of the code at the failing input: an opponent_moves
line containing one placement record and one attack/transfer record invokes
no per-item callback at all. The verb comparisons use the identity operator
`is` against string literals, which is false for every freshly split field,
so no record is ever classified into either list; only the two completion
callbacks fire, and the state is returned unchanged. -/
theorem claim_c1_opponent_moves_no_per_item_callbacks :
    Engine.parse "opponent_moves player1 place_armies 1 5 player1 attack/transfer 2 3\n"
      Engine.init
      = .ok (Engine.init, [.on_opponent_place_armies, .on_opponent_attack_or_move], []) := by
  rfl

/-- Claim C2, evaluation of the code at the failing input: once the input
stream has ended, `readline` returns the empty string without raising
`EOFError`, and a pipe at end-of-input never becomes `closed`; the loop body
hits `continue` forever. From any engine state, at every fuel, the run over
an exhausted stream is still looping — it never reaches an exit, so the loop
does not terminate after consuming a finite input. -/
theorem claim_c2_run_never_terminates_at_eof :
    ∀ (fuel : Nat) (s : Engine), Engine.runFuel fuel s [] = none := by
  intro fuel
  induction fuel with
  | zero => intro s; rfl
  | succ n ih => intro s; exact ih s

/-- Claim C3, evaluation of the code at the failing input: after declaring
super region 1 and then region 10 inside it, the member-region collection of
super region 1 is still empty. `on_setup_map_regions` resolves the super
region but never appends the created Region to `SuperRegion.regions`, so the
declared membership never holds. -/
theorem claim_c3_super_region_members_never_populated :
    ((Engine.parse "setup_map super_regions 1 5\n" Engine.init).bind fun r1 =>
      (Engine.parse "setup_map regions 10 1\n" r1.1).bind fun r2 =>
        (dictGet r2.1.super_regions "1").map fun sr => sr.regions)
      = .ok [] := by
  rfl

/-- Claim C9: an undeclared super-region id in a regions setup item and an
undeclared region id in a map-update item raise `KeyError`s that the message
loop does not catch, ending the run with an uncaught exception; in general
every dispatch error other than `KeyboardInterrupt` and `EOFError` (the only
two exception types named in the `except` clauses) propagates out of the
loop. -/
theorem claim_c9_undeclared_ids_fatal :
    Engine.runFuel 2 Engine.init ["setup_map regions 10 7\n"]
      = some (.raised (.keyError "7")) ∧
    Engine.runFuel 2 Engine.init ["update_map 10 player1 5\n"]
      = some (.raised (.keyError "10")) ∧
    ∀ (fuel : Nat) (s : Engine) (message : String) (rest : List String) (e : PyErr),
      message.length ≠ 0 →
      Engine.parse message s = .error e →
      e ≠ .keyboardInterrupt → e ≠ .eofError →
      Engine.runFuel (fuel + 1) s (message :: rest) = some (.raised e) := by
  refine ⟨rfl, rfl, ?_⟩
  intro fuel s message rest e hlen hparse hki heof
  unfold Engine.runFuel
  dsimp only
  rw [if_neg hlen, hparse]
  cases e with
  | keyError k => rfl
  | indexError => rfl
  | valueError t => rfl
  | keyboardInterrupt => exact absurd rfl hki
  | eofError => exact absurd rfl heof

/-- Witness for C9 at the concrete failing line: region setup referencing the
undeclared super region 7 raises a `KeyError` that the loop propagates. -/
theorem claim_c9_witness :
    Engine.runFuel 1 Engine.init ["setup_map regions 10 7\n"]
      = some (.raised (.keyError "7")) :=
  claim_c9_undeclared_ids_fatal.2.2 0 Engine.init "setup_map regions 10 7\n" []
    (.keyError "7") (by decide) rfl (by decide) (by decide)
